import Mathlib

/-!
A Lean model of the `vermouth/molecule.py` module: Python attribute values and
dictionaries, the link predicates (`Choice`, `NotDefinedOrNot`), interactions
and their registry, the `Molecule` operations (`add_interaction`,
`remove_interaction`, `merge_molecule`), the `Block` helpers
(`has_dihedral_around`, `has_improper_around`), the parameter effectors, and
the matching functions (`attributes_match`, `interaction_match`), together
with theorems about their behaviour.

Conventions of the embedding:
- Python dictionaries are insertion-ordered association lists; lookups read
  the first binding of a key (keys are unique in any dict produced by the
  Python runtime, so this is the dict semantics).
- Python exceptions become an error type `PyErr`; a function that can raise
  returns `Except PyErr _`, or a pair `Option PyErr × State` when the partial
  mutation of the receiver matters.
- Machine integers are `Int` (Python ints are unbounded, so no wrap-around).
-/

/-- A Python value as it occurs in the attribute dictionaries of the molecule
module: the sentinel `None`, an integer, or a string. -/
inductive PyVal where
  | none : PyVal
  | int : Int → PyVal
  | str : String → PyVal
deriving DecidableEq

/-- The failure kinds surfaced by the molecule module. `forceFieldMismatch`,
`nrexclMismatch` and `atomNotFound` are all `ValueError` in Python,
distinguished by their message; `noMatchFound` is the `KeyError` raised by
`remove_interaction`; `keyError`, `typeError` and `attributeError` are the
built-in Python exceptions of those names raised implicitly by subscripting
and attribute access. -/
inductive PyErr where
  | forceFieldMismatch : PyErr
  | nrexclMismatch : PyErr
  | atomNotFound : PyErr
  | noMatchFound : PyErr
  | keyError : PyErr
  | typeError : PyErr
  | attributeError : PyErr
deriving DecidableEq

/-- Python `d.get(k)`: the first binding of `k` in an insertion-ordered
dictionary, `none` when the key is absent. -/
def dget {κ α : Type} [DecidableEq κ] (d : List (κ × α)) (k : κ) : Option α :=
  match d with
  | [] => Option.none
  | p :: rest => if p.1 = k then some p.2 else dget rest k

/-- Python `d.get(k, v)`: lookup with a default. -/
def dgetD {κ α : Type} [DecidableEq κ] (d : List (κ × α)) (k : κ) (v : α) : α :=
  (dget d k).getD v

/-- Python `k in d`. -/
def dhas {κ α : Type} [DecidableEq κ] (d : List (κ × α)) (k : κ) : Bool :=
  (dget d k).isSome

/-- Python `d[k] = v`: replace the (first) binding of `k` in place, keeping
its position; append the binding at the end when the key is new. -/
def dset {κ α : Type} [DecidableEq κ] (d : List (κ × α)) (k : κ) (v : α) :
    List (κ × α) :=
  match d with
  | [] => [(k, v)]
  | p :: rest => if p.1 = k then (k, v) :: rest else p :: dset rest k v

/-- Python `d.update(new)`: assign every binding of `new`, in order. -/
def dupd {κ α : Type} [DecidableEq κ] (d new : List (κ × α)) : List (κ × α) :=
  new.foldl (fun acc p => dset acc p.1 p.2) d

theorem dget_dset_self {κ α : Type} [DecidableEq κ] (d : List (κ × α)) (k : κ)
    (v : α) : dget (dset d k v) k = some v := by
  induction d with
  | nil => simp [dset, dget]
  | cons p rest ih =>
    by_cases h : p.1 = k
    · simp [dset, h, dget]
    · simp [dset, h, dget, ih]

theorem dget_dset_ne {κ α : Type} [DecidableEq κ] (d : List (κ × α))
    {k k' : κ} (v : α) (h : k' ≠ k) : dget (dset d k v) k' = dget d k' := by
  have hne : k ≠ k' := fun hc => h hc.symm
  induction d with
  | nil => simp [dset, dget, hne]
  | cons p rest ih =>
    by_cases hp : p.1 = k
    · subst hp
      simp [dset, dget, hne]
    · simp [dset, hp, dget, ih]

/-- An attribute dictionary of a molecule node or of an interaction `meta`. -/
abbrev Attrs := List (String × PyVal)

/-- `Choice.match` from the molecule module: `node.get(key) in self.value`.
Python `dict.get` yields `None` for an absent key, so in that case the
membership test is performed on the sentinel `None`. -/
def choiceMatch (value : List PyVal) (node : Attrs) (key : String) : Bool :=
  decide (dgetD node key PyVal.none ∈ value)

/-- `NotDefinedOrNot.match` from the molecule module:
`key not in node or node[key] != self.value`. -/
def notDefinedOrNotMatch (value : PyVal) (node : Attrs) (key : String) : Bool :=
  match dget node key with
  | Option.none => true
  | some v => decide (v ≠ value)

/-- A value stored in a link template's attribute dictionary: either a plain
value, or one of the two link predicates applied during matching. -/
inductive TmplVal where
  | val : PyVal → TmplVal
  | choice : List PyVal → TmplVal
  | notDefinedOrNot : PyVal → TmplVal
deriving DecidableEq

/-- An attribute dictionary of a link template (values may be predicates). -/
abbrev TAttrs := List (String × TmplVal)

/-- `attributes_match(attributes, template_attributes, ignore_keys)`: every
template entry outside `ignore_keys` must hold — a predicate entry by its
`match` method, a plain entry by equality against `attributes.get(attr)`
(which is `None` when the key is absent). -/
def attributes_match (attributes : Attrs) (template_attributes : TAttrs)
    (ignore_keys : List String) : Bool :=
  template_attributes.all fun p =>
    if p.1 ∈ ignore_keys then true
    else
      match p.2 with
      | TmplVal.val v => decide (dgetD attributes p.1 PyVal.none = v)
      | TmplVal.choice value => choiceMatch value attributes p.1
      | TmplVal.notDefinedOrNot value => notDefinedOrNotMatch value attributes p.1

/-- C5 counterexample: with `values = [None]`, `Choice(values).match` on a
dictionary that lacks the key returns `True`, because `dict.get` maps the
absent key to `None`, which is a member of `values`. -/
theorem choice_match_missing_key_counterexample :
    choiceMatch [PyVal.none] [] "k" = true := by decide

/-- C5 (amended): `Choice(values).match(attributes, key)` is true exactly when
`attributes.get(key)` — the stored value when the key is present, the sentinel
`None` when it is absent — is a member of `values`; hence an absent key gives
`False` precisely when `None` is not among `values`. -/
theorem choice_match_amended (value : List PyVal) (node : Attrs) (key : String) :
    choiceMatch value node key = true ↔
      ((∃ v, dget node key = some v ∧ v ∈ value) ∨
        (dget node key = Option.none ∧ PyVal.none ∈ value)) := by
  unfold choiceMatch dgetD
  cases h : dget node key <;> simp

/-- C8: `NotDefinedOrNot(value).match(attributes, key)` is true exactly when
the key is absent or bound to a value different from the reference; with the
`None` sentinel as reference, an attribute explicitly set to `None` does not
match while true absence of the key does. -/
theorem notDefinedOrNot_match_spec (value : PyVal) (node : Attrs) (key : String) :
    (notDefinedOrNotMatch value node key = true ↔
      (dget node key = Option.none ∨ ∃ v, dget node key = some v ∧ v ≠ value))
    ∧ (dget node key = some PyVal.none →
        notDefinedOrNotMatch PyVal.none node key = false)
    ∧ (dget node key = Option.none →
        notDefinedOrNotMatch PyVal.none node key = true) := by
  refine ⟨?_, ?_, ?_⟩
  · unfold notDefinedOrNotMatch
    cases h : dget node key <;> simp
  · intro h
    unfold notDefinedOrNotMatch
    rw [h]
    simp
  · intro h
    unfold notDefinedOrNotMatch
    rw [h]

/-- C8 witness: the sentinel cases of `notDefinedOrNot_match_spec` at concrete
inputs — an attribute explicitly set to `None` does not match, an absent key
does. -/
theorem notDefinedOrNot_match_spec_witness :
    notDefinedOrNotMatch PyVal.none [("k", PyVal.none)] "k" = false ∧
      notDefinedOrNotMatch PyVal.none [] "k" = true :=
  ⟨(notDefinedOrNot_match_spec PyVal.none [("k", PyVal.none)] "k").2.1 (by decide),
    (notDefinedOrNot_match_spec PyVal.none [] "k").2.2 (by decide)⟩

/-- The `Interaction` namedtuple: an ordered atom tuple, an opaque parameter
sequence, and a `meta` dictionary. -/
structure Interaction (κ : Type) where
  atoms : List κ
  parameters : List PyVal
  meta : Attrs
deriving DecidableEq

/-- A template interaction as used for matching: either a plain `Interaction`
or a `DeleteInteraction`, which additionally carries one attribute-constraint
dictionary per atom position. Template dictionaries may contain predicates. -/
inductive TemplateInteraction (κ : Type) where
  | interaction (atoms : List κ) (parameters : List PyVal) (meta : TAttrs)
  | deleteInteraction (atoms : List κ) (atom_attrs : List TAttrs)
      (parameters : List PyVal) (meta : TAttrs)
deriving DecidableEq

/-- The `Molecule`: a force field reference, the `nrexcl` exclusion distance,
the insertion-ordered node storage (atom key to attribute dictionary), the
interaction registry (a `defaultdict(list)` keyed by interaction type), and
the edge list. -/
structure Molecule (κ : Type) where
  force_field : Option String
  nrexcl : Option Int
  nodes : List (κ × Attrs)
  interactions : List (String × List (Interaction κ))
  edges : List (κ × κ)
deriving DecidableEq

/-- Reading `self.interactions[type_]` from the `defaultdict(list)`: the
stored list, or the empty list when the type has no entry yet. -/
def regGet {κ : Type} (reg : List (String × List (Interaction κ)))
    (type_ : String) : List (Interaction κ) :=
  dgetD reg type_ []

/-- Python truthiness of an attribute value: `None`, `0` and `""` are falsy. -/
def pyTruthy : PyVal → Bool
  | PyVal.none => false
  | PyVal.int i => decide (i ≠ 0)
  | PyVal.str s => decide (s ≠ "")

/-- Index of the first element satisfying `p`, as scanned by the
`for idx, interaction in enumerate(...)` loops of the molecule module. -/
def findIdxP {α : Type} (p : α → Bool) (l : List α) : Option Nat :=
  match l with
  | [] => Option.none
  | a :: rest => if p a then some 0 else (findIdxP p rest).map (· + 1)

theorem findIdxP_some {α : Type} (p : α → Bool) (l : List α) (i : Nat)
    (h : findIdxP p l = some i) :
    ∃ hi : i < l.length, p (l.get ⟨i, hi⟩) = true := by
  induction l generalizing i with
  | nil => simp [findIdxP] at h
  | cons a rest ih =>
    by_cases hp : p a
    · simp [findIdxP, hp] at h
      subst h
      exact ⟨by simp, by simpa using hp⟩
    · simp [findIdxP, hp] at h
      cases hf : findIdxP p rest with
      | none => rw [hf] at h; simp at h
      | some j =>
        rw [hf] at h
        simp at h
        subst h
        obtain ⟨hj, hpj⟩ := ih j hf
        exact ⟨by simpa using Nat.succ_lt_succ hj, by simpa using hpj⟩

theorem findIdxP_none {α : Type} (p : α → Bool) (l : List α)
    (h : ∀ a ∈ l, p a = false) : findIdxP p l = Option.none := by
  induction l with
  | nil => simp [findIdxP]
  | cons a rest ih =>
    have ha : p a = false := h a (by simp)
    simp [findIdxP, ha, ih fun b hb => h b (by simp [hb])]

/-- `Molecule.add_interaction(type_, atoms, parameters, meta=None)`: a `None`
meta becomes the empty dict; every atom is checked for membership in the graph
(raising `ValueError('Unknown atom ...')`, here `atomNotFound`) before the
`Interaction` is appended to the type's list, so a failing call leaves the
molecule untouched. The result pairs the raised exception (if any) with the
molecule as left by the call. -/
def add_interaction {κ : Type} [DecidableEq κ] (mol : Molecule κ)
    (type_ : String) (atoms : List κ) (parameters : List PyVal)
    (meta : Option Attrs) : Option PyErr × Molecule κ :=
  if atoms.all fun a => dhas mol.nodes a then
    let reg := dset mol.interactions type_
      (regGet mol.interactions type_ ++ [⟨atoms, parameters, meta.getD []⟩])
    (Option.none, { mol with interactions := reg })
  else (some PyErr.atomNotFound, mol)

/-- `Molecule.remove_interaction(type_, atoms, version=0)`: scan the type's
list for the first entry with `interaction.atoms == atoms` and a truthy
`interaction.meta.get('version', 0)`, and delete it; raise `KeyError` (here
`noMatchFound`) when no entry qualifies. The `version` argument is only used
in the error message, never in the match condition. -/
def remove_interaction {κ : Type} [DecidableEq κ] (mol : Molecule κ)
    (type_ : String) (atoms : List κ) (version : Int) :
    Option PyErr × Molecule κ :=
  match findIdxP
      (fun i => decide (i.atoms = atoms)
        && pyTruthy (dgetD i.meta "version" (PyVal.int 0)))
      (regGet mol.interactions type_) with
  | some idx =>
    let reg := dset mol.interactions type_
      ((regGet mol.interactions type_).eraseIdx idx)
    (Option.none, { mol with interactions := reg })
  | Option.none => (some PyErr.noMatchFound, mol)

/-- C9: `add_interaction` raises `atomNotFound` and leaves the molecule
unchanged when any atom is not a node (all atoms are validated before any
mutation); when all atoms are present it appends exactly one entry
`Interaction(tuple(atoms), parameters, meta or {})` at the end of the type's
list, leaving every other entry and every other type's list unchanged. -/
theorem add_interaction_spec {κ : Type} [DecidableEq κ] (mol : Molecule κ)
    (type_ : String) (atoms : List κ) (parameters : List PyVal)
    (meta : Option Attrs) :
    ((∃ a ∈ atoms, dhas mol.nodes a = false) →
        add_interaction mol type_ atoms parameters meta
          = (some PyErr.atomNotFound, mol))
    ∧ ((∀ a ∈ atoms, dhas mol.nodes a = true) →
        ∃ mol', add_interaction mol type_ atoms parameters meta
            = (Option.none, mol')
          ∧ mol'.nodes = mol.nodes ∧ mol'.edges = mol.edges
          ∧ mol'.force_field = mol.force_field ∧ mol'.nrexcl = mol.nrexcl
          ∧ regGet mol'.interactions type_
              = regGet mol.interactions type_
                ++ [⟨atoms, parameters, meta.getD []⟩]
          ∧ ∀ u, u ≠ type_ →
              regGet mol'.interactions u = regGet mol.interactions u) := by
  constructor
  · intro h
    obtain ⟨a, ha, hfalse⟩ := h
    have hall : (atoms.all fun a => dhas mol.nodes a) = false := by
      simp [List.all_eq_true]
      exact ⟨a, ha, by simp [hfalse]⟩
    simp [add_interaction, hall]
  · intro h
    have hall : (atoms.all fun a => dhas mol.nodes a) = true := by
      simp [List.all_eq_true]
      intro a ha
      exact h a ha
    refine ⟨(add_interaction mol type_ atoms parameters meta).2,
      ?_, ?_, ?_, ?_, ?_, ?_, ?_⟩
    · simp [add_interaction, hall]
    · simp [add_interaction, hall]
    · simp [add_interaction, hall]
    · simp [add_interaction, hall]
    · simp [add_interaction, hall]
    · simp [add_interaction, hall, regGet, dgetD, dget_dset_self]
    · intro u hu
      simp [add_interaction, hall, regGet, dgetD, dget_dset_ne _ _ hu]

/-- A concrete two-atom molecule with one recorded bond, used to instantiate
the registry theorems. -/
def bondedPair : Molecule Nat :=
  { force_field := some "ff"
    nrexcl := some 1
    nodes := [(1, [("resid", PyVal.int 1)]), (2, [("resid", PyVal.int 1)])]
    interactions := [("bonds", [⟨[1, 2], [], []⟩])]
    edges := [(1, 2)] }

/-- C9 witness: on `bondedPair`, adding a bond that names the absent atom 3
fails with `atomNotFound` and changes nothing, while adding a bond on the
present atoms 1 and 2 appends exactly one entry at the end of the list. -/
theorem add_interaction_spec_witness :
    (add_interaction bondedPair "bonds" [1, 3] [] Option.none
      = (some PyErr.atomNotFound, bondedPair))
    ∧ (∃ mol', add_interaction bondedPair "bonds" [1, 2] [PyVal.int 5]
          Option.none = (Option.none, mol')
        ∧ mol'.nodes = bondedPair.nodes ∧ mol'.edges = bondedPair.edges
        ∧ mol'.force_field = bondedPair.force_field
        ∧ mol'.nrexcl = bondedPair.nrexcl
        ∧ regGet mol'.interactions "bonds"
            = regGet bondedPair.interactions "bonds"
              ++ [⟨[1, 2], [PyVal.int 5], Option.none.getD []⟩]
        ∧ ∀ u, u ≠ "bonds" →
            regGet mol'.interactions u = regGet bondedPair.interactions u) :=
  ⟨(add_interaction_spec bondedPair "bonds" [1, 3] [] Option.none).1
      (by decide),
    (add_interaction_spec bondedPair "bonds" [1, 2] [PyVal.int 5]
        Option.none).2 (by decide)⟩

/-- C2: `remove_interaction` only ever removes an entry whose atoms equal the
given atoms AND whose stored `meta.get('version', 0)` is truthy; an entry
whose atoms match but whose version is the (falsy) default 0 can never be the
one removed, and when every atoms-matching entry has a falsy version the call
raises `noMatchFound` and leaves the molecule unchanged. -/
theorem remove_interaction_version_check {κ : Type} [DecidableEq κ]
    (mol : Molecule κ) (type_ : String) (atoms : List κ) (version : Int) :
    (∀ mol', remove_interaction mol type_ atoms version = (Option.none, mol') →
        ∃ idx, ∃ hi : idx < (regGet mol.interactions type_).length,
          ((regGet mol.interactions type_).get ⟨idx, hi⟩).atoms = atoms
          ∧ pyTruthy (dgetD ((regGet mol.interactions type_).get ⟨idx, hi⟩).meta
              "version" (PyVal.int 0)) = true
          ∧ regGet mol'.interactions type_
              = (regGet mol.interactions type_).eraseIdx idx
          ∧ ∀ u, u ≠ type_ →
              regGet mol'.interactions u = regGet mol.interactions u)
    ∧ ((∀ i ∈ regGet mol.interactions type_, i.atoms = atoms →
          pyTruthy (dgetD i.meta "version" (PyVal.int 0)) = false) →
        remove_interaction mol type_ atoms version
          = (some PyErr.noMatchFound, mol)) := by
  constructor
  · intro mol' h
    unfold remove_interaction at h
    cases hf : findIdxP
        (fun i => decide (i.atoms = atoms)
          && pyTruthy (dgetD i.meta "version" (PyVal.int 0)))
        (regGet mol.interactions type_) with
    | none => rw [hf] at h; simp at h
    | some idx =>
      rw [hf] at h
      simp at h
      obtain ⟨hi, hp⟩ := findIdxP_some _ _ _ hf
      rw [Bool.and_eq_true, decide_eq_true_iff] at hp
      refine ⟨idx, hi, hp.1, hp.2, ?_, ?_⟩
      · rw [← h]
        simp [regGet, dgetD, dget_dset_self]
      · intro u hu
        rw [← h]
        simp [regGet, dgetD, dget_dset_ne _ _ hu]
  · intro h
    have hnone : findIdxP
        (fun i => decide (i.atoms = atoms)
          && pyTruthy (dgetD i.meta "version" (PyVal.int 0)))
        (regGet mol.interactions type_) = Option.none := by
      apply findIdxP_none
      intro i hi
      rw [Bool.and_eq_false_iff]
      by_cases ha : i.atoms = atoms
      · exact Or.inr (h i hi ha)
      · exact Or.inl (by simp [ha])
    unfold remove_interaction
    rw [hnone]

/-- C2 witness: `bondedPair` stores one bond between atoms 1 and 2 with no
`version` in its meta (so version defaults to 0); removing exactly those atoms
fails with `noMatchFound` and the entry stays. -/
theorem remove_interaction_version_check_witness :
    remove_interaction bondedPair "bonds" [1, 2] 0
      = (some PyErr.noMatchFound, bondedPair) :=
  (remove_interaction_version_check bondedPair "bonds" [1, 2] 0).2 (by decide)

/-- Python `atoms[1:-1]`: the central atoms of a dihedral or improper tuple. -/
def centralAtoms {κ : Type} (atoms : List κ) : List κ :=
  (atoms.drop 1).dropLast

/-- `Block.has_dihedral_around(center)`. The source builds
`all_centers = [tuple(dih['atoms'][1:-1]) for dih in self.interactions.get('dihedrals', [])]`
and returns `tuple(center) in all_centers`. Entries of the registry are
`Interaction` namedtuples, and subscripting a namedtuple with the string
`'atoms'` raises `TypeError: tuple indices must be integers or slices, not
str`; the comprehension is evaluated eagerly, so the call raises on the first
recorded dihedral and only an empty (or absent) `dihedrals` list reaches the
membership test, which is then `tuple(center) in []`, i.e. `False`. -/
def has_dihedral_around (blk : Molecule String) (center : List String) :
    Except PyErr Bool :=
  match regGet blk.interactions "dihedrals" with
  | [] => Except.ok false
  | _ :: _ => Except.error PyErr.typeError

/-- `Block.has_improper_around(center)`: unlike its dihedral sibling this one
accesses `dih.atoms`, so it really compares `tuple(center)` with the two
central atoms `tuple(dih.atoms[1:-1])` of every recorded improper. -/
def has_improper_around (blk : Molecule String) (center : List String) : Bool :=
  ((regGet blk.interactions "impropers").map fun dih => centralAtoms dih.atoms)
    |>.contains center

/-- A Block with one recorded dihedral over atoms a-b-c-d. -/
def dihedralBlock : Molecule String :=
  { force_field := Option.none
    nrexcl := Option.none
    nodes := [("a", []), ("b", []), ("c", []), ("d", [])]
    interactions := [("dihedrals", [⟨["a", "b", "c", "d"], [], []⟩])]
    edges := [] }

/-- A Block with one recorded improper over atoms a-b-c-d (and no dihedral). -/
def improperBlock : Molecule String :=
  { force_field := Option.none
    nrexcl := Option.none
    nodes := [("a", []), ("b", []), ("c", []), ("d", [])]
    interactions := [("impropers", [⟨["a", "b", "c", "d"], [], []⟩])]
    edges := [] }

/-- C3: `has_dihedral_around` raises `TypeError` as soon as any dihedral is
recorded, because `dih['atoms']` subscripts the `Interaction` namedtuple with
a string; it can only ever return (`False`) when no dihedral is recorded. The
sibling `has_improper_around`, which correctly uses `dih.atoms`, shows the
intended order-sensitive central-pair comparison. -/
theorem has_dihedral_around_raises :
    has_dihedral_around dihedralBlock ["b", "c"] = Except.error PyErr.typeError
    ∧ has_dihedral_around improperBlock ["b", "c"] = Except.ok false
    ∧ has_improper_around improperBlock ["b", "c"] = true
    ∧ has_improper_around improperBlock ["c", "b"] = false := by
  refine ⟨rfl, rfl, by decide, by decide⟩

/-- `LinkParameterEffector.__init__(keys, format=None)` restricted to the key
count check: when the subclass fixes `n_keys_asked` and the supplied key list
has a different length, the source executes
`raise ValueError('...'.format(self.__class__.name, ...))`; evaluating the
format argument `self.__class__.name` raises `AttributeError` (classes expose
`__name__`, not `name`), so the intended `ValueError` is never constructed and
the constructor fails with `AttributeError` instead. A matching key count
stores the keys and succeeds. -/
def linkParameterEffectorInit (n_keys_asked : Option Nat) (keys : List String) :
    Except PyErr (List String) :=
  match n_keys_asked with
  | Option.none => Except.ok keys
  | some n =>
    if keys.length ≠ n then Except.error PyErr.attributeError
    else Except.ok keys

/-- `ParamDistance` construction: `n_keys_asked = 2`. -/
def paramDistanceInit (keys : List String) : Except PyErr (List String) :=
  linkParameterEffectorInit (some 2) keys

/-- `ParamAngle` construction: `n_keys_asked = 3`. -/
def paramAngleInit (keys : List String) : Except PyErr (List String) :=
  linkParameterEffectorInit (some 3) keys

/-- `ParamDihedral` construction: `n_keys_asked = 4`. -/
def paramDihedralInit (keys : List String) : Except PyErr (List String) :=
  linkParameterEffectorInit (some 4) keys

/-- `ParamDihedralPhase` construction: `n_keys_asked = 4`. -/
def paramDihedralPhaseInit (keys : List String) : Except PyErr (List String) :=
  linkParameterEffectorInit (some 4) keys

/-- C4: for each fixed-arity effector variant, construction succeeds exactly
on a key list of the fixed arity (2, 3, 4, 4), and an arity mismatch fails —
but with `AttributeError` from `self.__class__.name` while formatting the
error message, not with the `InvalidArity` `ValueError` the claim (and the
constructor docstring) promise. -/
theorem link_parameter_effector_arity :
    (∀ keys : List String, paramDistanceInit keys =
      if keys.length = 2 then Except.ok keys
      else Except.error PyErr.attributeError)
    ∧ (∀ keys : List String, paramAngleInit keys =
      if keys.length = 3 then Except.ok keys
      else Except.error PyErr.attributeError)
    ∧ (∀ keys : List String, paramDihedralInit keys =
      if keys.length = 4 then Except.ok keys
      else Except.error PyErr.attributeError)
    ∧ (∀ keys : List String, paramDihedralPhaseInit keys =
      if keys.length = 4 then Except.ok keys
      else Except.error PyErr.attributeError) := by
  refine ⟨?_, ?_, ?_, ?_⟩ <;> intro keys <;>
    simp only [paramDistanceInit, paramAngleInit, paramDihedralInit,
      paramDihedralPhaseInit, linkParameterEffectorInit] <;>
    split <;> simp_all

/-- Atom tuple of a template interaction. -/
def tiAtoms {κ : Type} : TemplateInteraction κ → List κ
  | TemplateInteraction.interaction atoms _ _ => atoms
  | TemplateInteraction.deleteInteraction atoms _ _ _ => atoms

/-- Parameters of a template interaction. -/
def tiParameters {κ : Type} : TemplateInteraction κ → List PyVal
  | TemplateInteraction.interaction _ parameters _ => parameters
  | TemplateInteraction.deleteInteraction _ _ parameters _ => parameters

/-- Meta dictionary of a template interaction. -/
def tiMeta {κ : Type} : TemplateInteraction κ → TAttrs
  | TemplateInteraction.interaction _ _ meta => meta
  | TemplateInteraction.deleteInteraction _ _ _ meta => meta

/-- `template_interaction.atom_attrs`, with the source's `AttributeError`
fallback `[{}, ] * len(template_interaction.atoms)` for a plain
`Interaction` template. -/
def tiAtomAttrs {κ : Type} : TemplateInteraction κ → List TAttrs
  | TemplateInteraction.interaction atoms _ _ => List.replicate atoms.length []
  | TemplateInteraction.deleteInteraction _ atom_attrs _ _ => atom_attrs

/-- `[molecule.nodes[atom] for atom in atoms]`: the attribute dictionaries of
the listed atoms, raising `KeyError` at the first atom that is not a node. -/
def nodesOf {κ : Type} [DecidableEq κ] (mol : Molecule κ) (atoms : List κ) :
    Except PyErr (List Attrs) :=
  match atoms with
  | [] => Except.ok []
  | a :: rest =>
    match dget mol.nodes a with
    | Option.none => Except.error PyErr.keyError
    | some d =>
      match nodesOf mol rest with
      | Except.error e => Except.error e
      | Except.ok ds => Except.ok (d :: ds)

/-- `interaction_match(molecule, interaction, template_interaction)`: the atom
tuples must be equal (same order); the template's parameters must be empty or
equal to the interaction's; then every positional atom-attribute constraint
(trivial for a plain `Interaction` template) must match the corresponding
molecule atom via `attributes_match`, and finally the interaction's meta must
match the template's meta. The node lookups are only reached when atoms and
parameters match. -/
def interaction_match {κ : Type} [DecidableEq κ] (molecule : Molecule κ)
    (interaction : Interaction κ)
    (template_interaction : TemplateInteraction κ) : Except PyErr Bool :=
  if decide (tiAtoms template_interaction = interaction.atoms)
      && ((tiParameters template_interaction).isEmpty
        || decide (tiParameters template_interaction
            = interaction.parameters)) then
    match nodesOf molecule interaction.atoms with
    | Except.error e => Except.error e
    | Except.ok nodes =>
      if (nodes.zip (tiAtomAttrs template_interaction)).all
          fun p => attributes_match p.1 p.2 [] then
        Except.ok (attributes_match interaction.meta
          (tiMeta template_interaction) [])
      else Except.ok false
  else Except.ok false

theorem nodesOf_eq_map {κ : Type} [DecidableEq κ] (mol : Molecule κ)
    (atoms : List κ) (h : ∀ a ∈ atoms, dhas mol.nodes a = true) :
    nodesOf mol atoms = Except.ok (atoms.map fun a => dgetD mol.nodes a []) := by
  induction atoms with
  | nil => simp [nodesOf]
  | cons a rest ih =>
    have ha : dhas mol.nodes a = true := h a (by simp)
    unfold dhas at ha
    cases hg : dget mol.nodes a with
    | none => rw [hg] at ha; simp at ha
    | some d =>
      simp [nodesOf, hg, ih fun b hb => h b (by simp [hb]), dgetD]

theorem attributes_match_nil (attributes : Attrs) (ignore_keys : List String) :
    attributes_match attributes [] ignore_keys = true := rfl

theorem zip_replicate_attrs_all (l : List Attrs) (n : Nat) :
    ((l.zip (List.replicate n ([] : TAttrs))).all
      fun p => attributes_match p.1 p.2 []) = true := by
  rw [List.all_eq_true]
  intro p hp
  obtain ⟨p1, p2⟩ := p
  have h2 : p2 ∈ List.replicate n ([] : TAttrs) := (List.of_mem_zip hp).2
  rw [List.eq_of_mem_replicate h2]
  exact attributes_match_nil p1 []

theorem interaction_match_eq {κ : Type} [DecidableEq κ] (molecule : Molecule κ)
    (interaction : Interaction κ)
    (template_interaction : TemplateInteraction κ)
    (hnodes : ∀ a ∈ interaction.atoms, dhas molecule.nodes a = true) :
    interaction_match molecule interaction template_interaction
      = Except.ok (decide (tiAtoms template_interaction = interaction.atoms)
        && ((tiParameters template_interaction).isEmpty
          || decide (tiParameters template_interaction
              = interaction.parameters))
        && (((interaction.atoms.map fun a => dgetD molecule.nodes a []).zip
              (tiAtomAttrs template_interaction)).all
            fun p => attributes_match p.1 p.2 [])
        && attributes_match interaction.meta
            (tiMeta template_interaction) []) := by
  unfold interaction_match
  rw [nodesOf_eq_map molecule interaction.atoms hnodes]
  by_cases hc : (decide (tiAtoms template_interaction = interaction.atoms)
      && ((tiParameters template_interaction).isEmpty
        || decide (tiParameters template_interaction
            = interaction.parameters))) = true
  · rw [hc]
    by_cases hz : (((interaction.atoms.map fun a => dgetD molecule.nodes a
        []).zip (tiAtomAttrs template_interaction)).all
        fun p => attributes_match p.1 p.2 []) = true
    · simp [hz]
    · rw [Bool.not_eq_true] at hz
      simp [hz]
  · rw [Bool.not_eq_true] at hc
    rw [hc]
    simp [hc]

/-- C7: when the interaction's atoms are nodes of the molecule (the module's
registry invariant), `interaction_match` returns `True` exactly when (a) the
atom tuples are equal in order, (b) the template's parameters are empty or
equal the interaction's, (c) for a `DeleteInteraction` template every
positional atom-attribute constraint matches the corresponding molecule atom
via `attributes_match`, and (d) the interaction's meta matches the template's
meta; in particular it returns `False` whenever the atom order differs. -/
theorem interaction_match_spec {κ : Type} [DecidableEq κ] (molecule : Molecule κ)
    (interaction : Interaction κ)
    (template_interaction : TemplateInteraction κ)
    (hnodes : ∀ a ∈ interaction.atoms, dhas molecule.nodes a = true) :
    (interaction_match molecule interaction template_interaction = Except.ok true
      ↔ (tiAtoms template_interaction = interaction.atoms
        ∧ (tiParameters template_interaction = []
          ∨ tiParameters template_interaction = interaction.parameters)
        ∧ (match template_interaction with
          | TemplateInteraction.interaction _ _ _ => True
          | TemplateInteraction.deleteInteraction _ atom_attrs _ _ =>
            ∀ p ∈ (interaction.atoms.map fun a => dgetD molecule.nodes a
                []).zip atom_attrs, attributes_match p.1 p.2 [] = true)
        ∧ attributes_match interaction.meta (tiMeta template_interaction) []
            = true))
    ∧ (tiAtoms template_interaction ≠ interaction.atoms →
        interaction_match molecule interaction template_interaction
          = Except.ok false) := by
  have heq := interaction_match_eq molecule interaction template_interaction
    hnodes
  constructor
  · rw [heq]
    cases template_interaction with
    | interaction tatoms tparams tmeta =>
      have hz := zip_replicate_attrs_all
        (interaction.atoms.map fun a => dgetD molecule.nodes a [])
        tatoms.length
      simp only [tiAtoms, tiParameters, tiMeta, tiAtomAttrs, hz,
        Except.ok.injEq, Bool.and_eq_true, decide_eq_true_iff,
        Bool.or_eq_true, Bool.and_true]
      simp [List.isEmpty_iff]
      tauto
    | deleteInteraction tatoms taa tparams tmeta =>
      simp only [tiAtoms, tiParameters, tiMeta, tiAtomAttrs,
        Except.ok.injEq, Bool.and_eq_true, decide_eq_true_iff,
        Bool.or_eq_true, List.all_eq_true]
      simp [List.isEmpty_iff]
      tauto
  · intro hne
    rw [heq]
    simp [hne]

/-- C7 witness: on the concrete `bondedPair`, a template naming the same two
atoms in the opposite order does not match the stored bond. -/
theorem interaction_match_spec_witness :
    interaction_match bondedPair ⟨[1, 2], [], []⟩
      (TemplateInteraction.interaction [2, 1] [] []) = Except.ok false :=
  (interaction_match_spec bondedPair ⟨[1, 2], [], []⟩
    (TemplateInteraction.interaction [2, 1] [] []) (by decide)).2 (by decide)

/-- Python `+` as applied to attribute values in the merge loop: ints add,
strings concatenate, any other combination raises `TypeError`. -/
def pyAdd (a b : PyVal) : Except PyErr PyVal :=
  match a, b with
  | PyVal.int x, PyVal.int y => Except.ok (PyVal.int (x + y))
  | PyVal.str x, PyVal.str y => Except.ok (PyVal.str (x ++ y))
  | _, _ => Except.error PyErr.typeError

/-- `max(self)`: the largest node key of an integer-keyed molecule (the source
only evaluates it on a non-empty molecule, where the 0 base is inert). -/
def maxKey (nodes : List (Nat × Attrs)) : Nat :=
  (nodes.map Prod.fst).foldr max 0

/-- `self.nodes[k]`: the attribute dictionary of node `k`; call sites
guarantee the node exists, so the `[]` default is never observable. -/
def molNode {κ : Type} [DecidableEq κ] (mol : Molecule κ) (k : κ) : Attrs :=
  dgetD mol.nodes k []

/-- networkx `add_node(k, **attrs)`: update the attribute dictionary of an
existing node in place, or append a new node at the end. -/
def addNode (nodes : List (Nat × Attrs)) (k : Nat) (attrs : Attrs) :
    List (Nat × Attrs) :=
  if dhas nodes k then
    nodes.map fun p => if p.1 = k then (p.1, dupd p.2 attrs) else p
  else nodes ++ [(k, attrs)]

/-- networkx `add_node` for an edge endpoint with no attributes. -/
def addEdgeNode (nodes : List (Nat × Attrs)) (u : Nat) : List (Nat × Attrs) :=
  if dhas nodes u then nodes else nodes ++ [(u, [])]

/-- networkx undirected edge membership. -/
def hasEdge (edges : List (Nat × Nat)) (u v : Nat) : Bool :=
  edges.any fun e =>
    (decide (e.1 = u) && decide (e.2 = v))
      || (decide (e.1 = v) && decide (e.2 = u))

/-- networkx `add_edge(u, v)`: create missing endpoints as nodes, then record
the undirected edge if not already present. -/
def add_edge (mol : Molecule Nat) (u v : Nat) : Molecule Nat :=
  let nodes1 := addEdgeNode (addEdgeNode mol.nodes u) v
  let edges1 := if hasEdge mol.edges u v then mol.edges else mol.edges ++ [(u, v)]
  { mol with nodes := nodes1, edges := edges1 }

/-- The offsets computed at the start of `merge_molecule`: with nodes present,
`offset = max(self)` (the code assumes the last id is the largest),
`residue_offset = self.nodes[max]['resid']` (a `KeyError` when the last atom
has no resid) and `offset_charge_group = self.nodes[max].get('charge_group', 1)`;
for an empty molecule all three offsets are 0. -/
def mergeOffsets (self : Molecule Nat) : Except PyErr (Nat × PyVal × PyVal) :=
  if self.nodes.isEmpty then Except.ok (0, PyVal.int 0, PyVal.int 0)
  else
    match dget (molNode self (maxKey self.nodes)) "resid" with
    | Option.none => Except.error PyErr.keyError
    | some residue_offset =>
      Except.ok (maxKey self.nodes, residue_offset,
        dgetD (molNode self (maxKey self.nodes)) "charge_group" (PyVal.int 1))

/-- The `for idx, node in enumerate(molecule.nodes(), start=offset + 1)` loop
of `merge_molecule`: record `correspondence[node] = idx`, copy the atom, add
the residue offset to its `resid` (incoming default 1), then the charge-group
offset to its `charge_group` (incoming default 1), and `add_node` it. -/
def mergeLoop {κ : Type} [DecidableEq κ] (corr : List (κ × Nat))
    (nodes : List (Nat × Attrs)) (idx : Nat) (rem : List (κ × Attrs))
    (residue_offset offset_charge_group : PyVal) :
    Except PyErr (List (κ × Nat) × List (Nat × Attrs)) :=
  match rem with
  | [] => Except.ok (corr, nodes)
  | (node, atom) :: rest =>
    match pyAdd (dgetD atom "resid" (PyVal.int 1)) residue_offset with
    | Except.error e => Except.error e
    | Except.ok resid =>
      let atom1 := dset atom "resid" resid
      match pyAdd (dgetD atom1 "charge_group" (PyVal.int 1))
          offset_charge_group with
      | Except.error e => Except.error e
      | Except.ok cg =>
        mergeLoop (dset corr node idx)
          (addNode nodes idx (dset atom1 "charge_group" cg)) (idx + 1) rest
          residue_offset offset_charge_group

/-- `correspondence[atom]`: a `KeyError` when the atom was never mapped. -/
def mapAtom {κ : Type} [DecidableEq κ] (corr : List (κ × Nat)) (a : κ) :
    Except PyErr Nat :=
  match dget corr a with
  | some i => Except.ok i
  | Option.none => Except.error PyErr.keyError

/-- `tuple(correspondence[atom] for atom in interaction.atoms)`. -/
def mapAtoms {κ : Type} [DecidableEq κ] (corr : List (κ × Nat))
    (atoms : List κ) : Except PyErr (List Nat) :=
  match atoms with
  | [] => Except.ok []
  | a :: rest =>
    match mapAtom corr a with
    | Except.error e => Except.error e
    | Except.ok i =>
      match mapAtoms corr rest with
      | Except.error e => Except.error e
      | Except.ok js => Except.ok (i :: js)

/-- The inner loop over one interaction type during a merge: remap every
interaction's atoms through the correspondence and `add_interaction` it (a
raised exception propagates out of the merge). -/
def mergeInterList {κ : Type} [DecidableEq κ] (mol : Molecule Nat)
    (corr : List (κ × Nat)) (name : String) (li : List (Interaction κ)) :
    Except PyErr (Molecule Nat) :=
  match li with
  | [] => Except.ok mol
  | i :: rest =>
    match mapAtoms corr i.atoms with
    | Except.error e => Except.error e
    | Except.ok atoms =>
      match add_interaction mol name atoms i.parameters (some i.meta) with
      | (some e, _) => Except.error e
      | (Option.none, mol1) => mergeInterList mol1 corr name rest

/-- The `for name, interactions in molecule.interactions.items()` loop. -/
def mergeInteractionsPhase {κ : Type} [DecidableEq κ] (mol : Molecule Nat)
    (corr : List (κ × Nat))
    (inters : List (String × List (Interaction κ))) :
    Except PyErr (Molecule Nat) :=
  match inters with
  | [] => Except.ok mol
  | (name, li) :: rest =>
    match mergeInterList mol corr name li with
    | Except.error e => Except.error e
    | Except.ok mol1 => mergeInteractionsPhase mol1 corr rest

/-- The `for node1, node2 in molecule.edges` loop: remap both endpoints and
add the edge unless it collapses to a self-loop under the mapping. -/
def mergeEdgesPhase {κ : Type} [DecidableEq κ] (mol : Molecule Nat)
    (corr : List (κ × Nat)) (edges : List (κ × κ)) :
    Except PyErr (Molecule Nat) :=
  match edges with
  | [] => Except.ok mol
  | (n1, n2) :: rest =>
    match mapAtom corr n1 with
    | Except.error e => Except.error e
    | Except.ok c1 =>
      match mapAtom corr n2 with
      | Except.error e => Except.error e
      | Except.ok c2 =>
        if c1 ≠ c2 then mergeEdgesPhase (add_edge mol c1 c2) corr rest
        else mergeEdgesPhase mol corr rest

/-- The body of `merge_molecule` after its two prechecks: compute the offsets,
run the node loop, remap the interactions, remap the edges. The result pairs
the returned correspondence dictionary with the mutated receiver. -/
def mergeBody {κ : Type} [DecidableEq κ] (self : Molecule Nat)
    (other : Molecule κ) : Except PyErr (List (κ × Nat) × Molecule Nat) :=
  match mergeOffsets self with
  | Except.error e => Except.error e
  | Except.ok (offset, residue_offset, offset_charge_group) =>
    match mergeLoop [] self.nodes (offset + 1) other.nodes residue_offset
        offset_charge_group with
    | Except.error e => Except.error e
    | Except.ok (correspondence, newNodes) =>
      match mergeInteractionsPhase { self with nodes := newNodes }
          correspondence other.interactions with
      | Except.error e => Except.error e
      | Except.ok mol2 =>
        match mergeEdgesPhase mol2 correspondence other.edges with
        | Except.error e => Except.error e
        | Except.ok mol3 => Except.ok (correspondence, mol3)

/-- `Molecule.merge_molecule(self, molecule)`: a force-field mismatch raises
`ValueError` (`forceFieldMismatch`) before anything else; an empty receiver
with unset (`None`) `nrexcl` adopts the incoming `nrexcl`; after that, any
`nrexcl` disagreement raises `ValueError` (`nrexclMismatch`); then the merge
body runs. -/
def merge_molecule {κ : Type} [DecidableEq κ] (self : Molecule Nat)
    (other : Molecule κ) : Except PyErr (List (κ × Nat) × Molecule Nat) :=
  if self.force_field ≠ other.force_field then
    Except.error PyErr.forceFieldMismatch
  else
    let self1 := if self.nrexcl = Option.none ∧ self.nodes = [] then
      { self with nrexcl := other.nrexcl } else self
    if self1.nrexcl ≠ other.nrexcl then Except.error PyErr.nrexclMismatch
    else mergeBody self1 other

/-- The integer behind `atom.get(key, 1)` when the attribute is an int or
absent: the stored integer, or the default 1 (the 0 for a stored non-int is
never reached under `isIntOrAbsent`). -/
def intOr1 : Option PyVal → Int
  | Option.none => 1
  | some (PyVal.int r) => r
  | some _ => 0

/-- The attribute is either absent or holds an integer (so that Python `+`
with an integer offset is defined). -/
def isIntOrAbsent (atom : Attrs) (key : String) : Bool :=
  match dget atom key with
  | Option.none => true
  | some (PyVal.int _) => true
  | some _ => false

/-- The atom inserted by the merge loop: the incoming attributes with `resid`
set to `incoming resid (default 1) + residue offset` and `charge_group` set to
`incoming charge_group (default 1) + charge-group offset`. -/
def mergedAtom (atom : Attrs) (ro co : Int) : Attrs :=
  dset (dset atom "resid" (PyVal.int (intOr1 (dget atom "resid") + ro)))
    "charge_group" (PyVal.int (intOr1 (dget atom "charge_group") + co))

/-- The nodes appended by a merge: ids `idx, idx+1, ...` in the incoming
iteration order, each carrying its `mergedAtom` attributes. -/
def mappedNodes {κ : Type} (idx : Nat) (rem : List (κ × Attrs)) (ro co : Int) :
    List (Nat × Attrs) :=
  match rem with
  | [] => []
  | (_, atom) :: rest => (idx, mergedAtom atom ro co) :: mappedNodes (idx + 1) rest ro co

/-- The correspondence built by a merge: incoming keys mapped to
`idx, idx+1, ...` in iteration order. -/
def corrSpec {κ : Type} (idx : Nat) (rem : List (κ × Attrs)) : List (κ × Nat) :=
  match rem with
  | [] => []
  | (node, _) :: rest => (node, idx) :: corrSpec (idx + 1) rest

theorem dget_none_of_forall_ne {κ α : Type} [DecidableEq κ]
    (d : List (κ × α)) (k : κ) (h : ∀ p ∈ d, p.1 ≠ k) :
    dget d k = Option.none := by
  induction d with
  | nil => rfl
  | cons p rest ih =>
    simp [dget, h p (by simp), ih fun q hq => h q (by simp [hq])]

theorem dset_fresh {κ α : Type} [DecidableEq κ] (d : List (κ × α)) (k : κ)
    (v : α) (h : dget d k = Option.none) : dset d k v = d ++ [(k, v)] := by
  induction d with
  | nil => simp [dset]
  | cons p rest ih =>
    unfold dget at h
    by_cases hp : p.1 = k
    · rw [if_pos hp] at h
      simp at h
    · rw [if_neg hp] at h
      simp [dset, hp, ih h]

theorem addNode_fresh (nodes : List (Nat × Attrs)) (k : Nat) (attrs : Attrs)
    (h : dget nodes k = Option.none) :
    addNode nodes k attrs = nodes ++ [(k, attrs)] := by
  simp [addNode, dhas, h]

theorem getD_int_of (atom : Attrs) (key : String)
    (h : isIntOrAbsent atom key = true) :
    dgetD atom key (PyVal.int 1) = PyVal.int (intOr1 (dget atom key)) := by
  unfold isIntOrAbsent at h
  unfold dgetD
  cases hg : dget atom key with
  | none => simp [intOr1]
  | some v =>
    rw [hg] at h
    cases v <;> simp_all [intOr1]

theorem le_foldr_max (l : List Nat) (k : Nat) (h : k ∈ l) :
    k ≤ l.foldr max 0 := by
  induction l with
  | nil => simp at h
  | cons a t ih =>
    simp only [List.foldr_cons]
    rcases List.mem_cons.mp h with h1 | h2
    · subst h1
      exact Nat.le_max_left _ _
    · exact Nat.le_trans (ih h2) (Nat.le_max_right _ _)

theorem maxKey_le (nodes : List (Nat × Attrs)) :
    ∀ p ∈ nodes, p.1 ≤ maxKey nodes := by
  intro p hp
  exact le_foldr_max _ _ (List.mem_map_of_mem _ hp)

theorem dget_cons {κ α : Type} [DecidableEq κ] (p : κ × α)
    (rest : List (κ × α)) (k : κ) :
    dget (p :: rest) k = if p.1 = k then some p.2 else dget rest k := rfl

theorem dget_append_some {κ α : Type} [DecidableEq κ] (l1 l2 : List (κ × α))
    (k : κ) (v : α) (h : dget l1 k = some v) :
    dget (l1 ++ l2) k = some v := by
  induction l1 with
  | nil => simp [dget] at h
  | cons p rest ih =>
    simp only [List.cons_append]
    unfold dget at h ⊢
    by_cases hp : p.1 = k
    · rw [if_pos hp] at h ⊢
      exact h
    · rw [if_neg hp] at h
      rw [if_neg hp]
      exact ih h

theorem dget_append_none {κ α : Type} [DecidableEq κ] (l1 l2 : List (κ × α))
    (k : κ) (h : dget l1 k = Option.none) :
    dget (l1 ++ l2) k = dget l2 k := by
  induction l1 with
  | nil => simp [dget]
  | cons p rest ih =>
    rw [dget_cons] at h
    by_cases hp : p.1 = k
    · rw [if_pos hp] at h
      simp at h
    · rw [if_neg hp] at h
      simp only [List.cons_append]
      rw [dget_cons, if_neg hp]
      exact ih h

theorem dget_of_mem_nodup {κ α : Type} [DecidableEq κ] {d : List (κ × α)}
    (hnd : (d.map Prod.fst).Nodup) {k : κ} {v : α} (hm : (k, v) ∈ d) :
    dget d k = some v := by
  induction d with
  | nil => simp at hm
  | cons p rest ih =>
    rw [List.map_cons, List.nodup_cons] at hnd
    rcases List.mem_cons.mp hm with h1 | h2
    · rw [← h1]
      simp [dget]
    · have hp : p.1 ≠ k := by
        intro hc
        exact hnd.1 (hc ▸ List.mem_map_of_mem Prod.fst h2)
      simp [dget, hp, ih hnd.2 h2]

theorem getLast?_mem_self {α : Type} {l : List α} {a : α}
    (h : l.getLast? = some a) : a ∈ l := by
  have hx : a ∈ l.getLast? := by simp [h, Option.mem_def]
  obtain ⟨hne, heq⟩ := List.mem_getLast?_eq_getLast hx
  rw [heq]
  exact List.getLast_mem hne

theorem corrSpec_dget {κ : Type} [DecidableEq κ] (rem : List (κ × Attrs))
    (idx : Nat) (k : κ) (h : k ∈ rem.map Prod.fst) :
    ∃ j, dget (corrSpec idx rem) k = some j ∧ idx ≤ j ∧ j < idx + rem.length := by
  induction rem generalizing idx with
  | nil => simp at h
  | cons p rest ih =>
    obtain ⟨node, atom⟩ := p
    by_cases hk : node = k
    · exact ⟨idx, by simp [corrSpec, dget, hk], Nat.le_refl idx, by simp⟩
    · have h2 : k ∈ rest.map Prod.fst := by
        simp only [List.map_cons, List.mem_cons] at h
        rcases h with h1 | h1
        · exact absurd h1.symm hk
        · exact h1
      obtain ⟨j, hj, hj1, hj2⟩ := ih (idx + 1) h2
      refine ⟨j, by simp [corrSpec, dget, hk, hj], by omega, ?_⟩
      simp only [List.length_cons]
      omega

theorem mappedNodes_dget_isSome {κ : Type} (rem : List (κ × Attrs))
    (idx j : Nat) (ro co : Int) (h1 : idx ≤ j) (h2 : j < idx + rem.length) :
    (dget (mappedNodes idx rem ro co) j).isSome = true := by
  induction rem generalizing idx with
  | nil => simp at h2; omega
  | cons p rest ih =>
    obtain ⟨node, atom⟩ := p
    by_cases hj : idx = j
    · simp [mappedNodes, dget, hj]
    · have hle : idx + 1 ≤ j := by omega
      have hlt : j < idx + 1 + rest.length := by
        simp only [List.length_cons] at h2
        omega
      simp only [mappedNodes, dget, hj, if_false]
      exact ih (idx + 1) hle hlt

theorem dhas_append {κ α : Type} [DecidableEq κ] (l1 l2 : List (κ × α))
    (k : κ) : dhas (l1 ++ l2) k = (dhas l1 k || dhas l2 k) := by
  cases hg : dget l1 k with
  | none => simp [dhas, dget_append_none l1 l2 k hg, hg]
  | some v => simp [dhas, dget_append_some l1 l2 k v hg, hg]

theorem mergeLoop_ok {κ : Type} [DecidableEq κ] (rem : List (κ × Attrs))
    (corr : List (κ × Nat)) (nodes : List (Nat × Attrs)) (idx : Nat)
    (ro co : Int)
    (hvals : ∀ p ∈ rem, isIntOrAbsent p.2 "resid" = true
      ∧ isIntOrAbsent p.2 "charge_group" = true)
    (hnodes : ∀ p ∈ nodes, p.1 < idx)
    (hfresh : ∀ p ∈ corr, ∀ q ∈ rem, p.1 ≠ q.1)
    (hnd : (rem.map Prod.fst).Nodup) :
    mergeLoop corr nodes idx rem (PyVal.int ro) (PyVal.int co)
      = Except.ok (corr ++ corrSpec idx rem,
          nodes ++ mappedNodes idx rem ro co) := by
  induction rem generalizing corr nodes idx with
  | nil => simp [mergeLoop, corrSpec, mappedNodes]
  | cons hd rest ih =>
    obtain ⟨node, atom⟩ := hd
    have hv := hvals (node, atom) (by simp)
    have h1 : dgetD atom "resid" (PyVal.int 1)
        = PyVal.int (intOr1 (dget atom "resid")) := getD_int_of atom "resid" hv.1
    have h2 : dgetD (dset atom "resid"
          (PyVal.int (intOr1 (dget atom "resid") + ro)))
          "charge_group" (PyVal.int 1)
        = PyVal.int (intOr1 (dget atom "charge_group")) := by
      unfold dgetD
      rw [dget_dset_ne atom _
        (by decide : ("charge_group" : String) ≠ "resid")]
      exact getD_int_of atom "charge_group" hv.2
    have hcorr : dset corr node idx = corr ++ [(node, idx)] :=
      dset_fresh corr node idx (dget_none_of_forall_ne corr node
        fun p hp => hfresh p hp (node, atom) (by simp))
    have hnode : addNode nodes idx
          (dset (dset atom "resid" (PyVal.int (intOr1 (dget atom "resid") + ro)))
            "charge_group" (PyVal.int (intOr1 (dget atom "charge_group") + co)))
        = nodes ++ [(idx, mergedAtom atom ro co)] :=
      addNode_fresh nodes idx _ (dget_none_of_forall_ne nodes idx
        fun p hp => Nat.ne_of_lt (hnodes p hp))
    rw [List.map_cons, List.nodup_cons] at hnd
    have hrec := ih (corr ++ [(node, idx)]) (nodes ++ [(idx, mergedAtom atom ro co)])
      (idx + 1)
      (fun p hp => hvals p (by simp [hp]))
      (by
        intro p hp
        rcases List.mem_append.mp hp with h | h
        · exact Nat.lt_trans (hnodes p h) (Nat.lt_succ_self idx)
        · simp only [List.mem_singleton] at h
          subst h
          exact Nat.lt_succ_self idx)
      (by
        intro p hp q hq
        rcases List.mem_append.mp hp with h | h
        · exact hfresh p h q (by simp [hq])
        · simp only [List.mem_singleton] at h
          subst h
          intro hc
          have hc2 : node = q.1 := hc
          exact hnd.1 (by
            show node ∈ List.map Prod.fst rest
            rw [hc2]
            exact List.mem_map_of_mem Prod.fst hq))
      hnd.2
    simp only [mergeLoop, h1, pyAdd, h2]
    rw [hcorr, hnode, hrec]
    simp [corrSpec, mappedNodes, List.append_assoc]

theorem mapAtoms_ok {κ : Type} [DecidableEq κ] (corr : List (κ × Nat))
    (atoms : List κ) (P : Nat → Prop)
    (h : ∀ a ∈ atoms, ∃ j, dget corr a = some j ∧ P j) :
    ∃ js, mapAtoms corr atoms = Except.ok js ∧ ∀ j ∈ js, P j := by
  induction atoms with
  | nil => exact ⟨[], rfl, by simp⟩
  | cons a rest ih =>
    obtain ⟨j, hj, hPj⟩ := h a (by simp)
    obtain ⟨js, hjs, hPjs⟩ := ih fun b hb => h b (by simp [hb])
    refine ⟨j :: js, ?_, ?_⟩
    · simp [mapAtoms, mapAtom, hj, hjs]
    · intro x hx
      rcases List.mem_cons.mp hx with h1 | h2
      · rw [h1]
        exact hPj
      · exact hPjs x h2

theorem add_interaction_ok_fields {κ : Type} [DecidableEq κ]
    (mol : Molecule κ) (type_ : String) (atoms : List κ)
    (parameters : List PyVal) (meta : Option Attrs)
    (h : (atoms.all fun a => dhas mol.nodes a) = true) :
    ∃ mol1, add_interaction mol type_ atoms parameters meta
        = (Option.none, mol1)
      ∧ mol1.nodes = mol.nodes ∧ mol1.force_field = mol.force_field
      ∧ mol1.nrexcl = mol.nrexcl ∧ mol1.edges = mol.edges :=
  ⟨(add_interaction mol type_ atoms parameters meta).2,
    by simp [add_interaction, h], by simp [add_interaction, h],
    by simp [add_interaction, h], by simp [add_interaction, h],
    by simp [add_interaction, h]⟩

theorem mergeInterList_ok {κ : Type} [DecidableEq κ]
    (li : List (Interaction κ)) (mol : Molecule Nat) (corr : List (κ × Nat))
    (name : String)
    (h : ∀ i ∈ li, ∀ a ∈ i.atoms,
      ∃ j, dget corr a = some j ∧ dhas mol.nodes j = true) :
    ∃ mol1, mergeInterList mol corr name li = Except.ok mol1
      ∧ mol1.nodes = mol.nodes ∧ mol1.force_field = mol.force_field
      ∧ mol1.nrexcl = mol.nrexcl ∧ mol1.edges = mol.edges := by
  induction li generalizing mol with
  | nil => exact ⟨mol, rfl, rfl, rfl, rfl, rfl⟩
  | cons i rest ih =>
    obtain ⟨js, hjs, hP⟩ := mapAtoms_ok corr i.atoms
      (fun j => dhas mol.nodes j = true) (h i (by simp))
    have hall : (js.all fun a => dhas mol.nodes a) = true := by
      rw [List.all_eq_true]
      intro j hj
      exact hP j hj
    obtain ⟨mol1, hadd, hn, hf, hx, he⟩ :=
      add_interaction_ok_fields mol name js i.parameters (some i.meta) hall
    obtain ⟨mol2, hrec, hn2, hf2, hx2, he2⟩ := ih mol1 (by
      intro i2 hi2 a ha
      obtain ⟨j, hj, hd⟩ := h i2 (by simp [hi2]) a ha
      exact ⟨j, hj, by rw [hn]; exact hd⟩)
    refine ⟨mol2, ?_, by rw [hn2, hn], by rw [hf2, hf],
      by rw [hx2, hx], by rw [he2, he]⟩
    simp [mergeInterList, hjs, hadd, hrec]

theorem mergeInteractionsPhase_ok {κ : Type} [DecidableEq κ]
    (inters : List (String × List (Interaction κ))) (mol : Molecule Nat)
    (corr : List (κ × Nat))
    (h : ∀ q ∈ inters, ∀ i ∈ q.2, ∀ a ∈ i.atoms,
      ∃ j, dget corr a = some j ∧ dhas mol.nodes j = true) :
    ∃ mol1, mergeInteractionsPhase mol corr inters = Except.ok mol1
      ∧ mol1.nodes = mol.nodes ∧ mol1.force_field = mol.force_field
      ∧ mol1.nrexcl = mol.nrexcl ∧ mol1.edges = mol.edges := by
  induction inters generalizing mol with
  | nil => exact ⟨mol, rfl, rfl, rfl, rfl, rfl⟩
  | cons q rest ih =>
    obtain ⟨name, li⟩ := q
    obtain ⟨mol1, hone, hn, hf, hx, he⟩ := mergeInterList_ok li mol corr name
      (h (name, li) (by simp))
    obtain ⟨mol2, hrec, hn2, hf2, hx2, he2⟩ := ih mol1 (by
      intro q2 hq2 i hi a ha
      obtain ⟨j, hj, hd⟩ := h q2 (by simp [hq2]) i hi a ha
      exact ⟨j, hj, by rw [hn]; exact hd⟩)
    refine ⟨mol2, ?_, by rw [hn2, hn], by rw [hf2, hf],
      by rw [hx2, hx], by rw [he2, he]⟩
    simp [mergeInteractionsPhase, hone, hrec]

theorem add_edge_preserves (mol : Molecule Nat) (u v : Nat)
    (hu : dhas mol.nodes u = true) (hv : dhas mol.nodes v = true) :
    (add_edge mol u v).nodes = mol.nodes
      ∧ (add_edge mol u v).force_field = mol.force_field
      ∧ (add_edge mol u v).nrexcl = mol.nrexcl :=
  ⟨by simp [add_edge, addEdgeNode, hu, hv], rfl, rfl⟩

theorem mergeEdgesPhase_ok {κ : Type} [DecidableEq κ] (edges : List (κ × κ))
    (mol : Molecule Nat) (corr : List (κ × Nat))
    (h : ∀ e ∈ edges,
      (∃ j, dget corr e.1 = some j ∧ dhas mol.nodes j = true)
        ∧ (∃ j, dget corr e.2 = some j ∧ dhas mol.nodes j = true)) :
    ∃ mol1, mergeEdgesPhase mol corr edges = Except.ok mol1
      ∧ mol1.nodes = mol.nodes ∧ mol1.force_field = mol.force_field
      ∧ mol1.nrexcl = mol.nrexcl := by
  induction edges generalizing mol with
  | nil => exact ⟨mol, rfl, rfl, rfl, rfl⟩
  | cons e rest ih =>
    obtain ⟨n1, n2⟩ := e
    obtain ⟨⟨c1, hc1, hd1⟩, ⟨c2, hc2, hd2⟩⟩ := h (n1, n2) (by simp)
    by_cases hne : c1 ≠ c2
    · obtain ⟨hn, hf, hx⟩ := add_edge_preserves mol c1 c2 hd1 hd2
      obtain ⟨mol2, hrec, hn2, hf2, hx2⟩ := ih (add_edge mol c1 c2) (by
        intro e2 he2
        obtain ⟨⟨j1, hj1, hdj1⟩, ⟨j2, hj2, hdj2⟩⟩ := h e2 (by simp [he2])
        exact ⟨⟨j1, hj1, by rw [hn]; exact hdj1⟩,
          ⟨j2, hj2, by rw [hn]; exact hdj2⟩⟩)
      refine ⟨mol2, ?_, by rw [hn2, hn], by rw [hf2, hf], by rw [hx2, hx]⟩
      simp [mergeEdgesPhase, mapAtom, hc1, hc2, hne, hrec]
    · obtain ⟨mol2, hrec, hn2, hf2, hx2⟩ := ih mol (by
        intro e2 he2
        exact h e2 (by simp [he2]))
      refine ⟨mol2, ?_, hn2, hf2, hx2⟩
      simp [mergeEdgesPhase, mapAtom, hc1, hc2, hne, hrec]

theorem mergeBody_ok {κ : Type} [DecidableEq κ] (self : Molecule Nat)
    (other : Molecule κ) (offset : Nat) (ro co : Int)
    (hoff : mergeOffsets self = Except.ok (offset, PyVal.int ro, PyVal.int co))
    (hkeys : ∀ p ∈ self.nodes, p.1 ≤ offset)
    (hvals : ∀ p ∈ other.nodes, isIntOrAbsent p.2 "resid" = true
      ∧ isIntOrAbsent p.2 "charge_group" = true)
    (hnd : (other.nodes.map Prod.fst).Nodup)
    (hinters : ∀ q ∈ other.interactions, ∀ i ∈ q.2, ∀ a ∈ i.atoms,
      a ∈ other.nodes.map Prod.fst)
    (hedges : ∀ e ∈ other.edges, e.1 ∈ other.nodes.map Prod.fst
      ∧ e.2 ∈ other.nodes.map Prod.fst) :
    ∃ mol3, mergeBody self other
        = Except.ok (corrSpec (offset + 1) other.nodes, mol3)
      ∧ mol3.nodes = self.nodes ++ mappedNodes (offset + 1) other.nodes ro co
      ∧ mol3.force_field = self.force_field
      ∧ mol3.nrexcl = self.nrexcl := by
  have hloop := mergeLoop_ok other.nodes [] self.nodes (offset + 1) ro co hvals
    (fun p hp => Nat.lt_succ_of_le (hkeys p hp))
    (fun p hp => absurd hp (List.not_mem_nil p))
    hnd
  have hcorrP : ∀ a ∈ other.nodes.map Prod.fst,
      ∃ j, dget (corrSpec (offset + 1) other.nodes) a = some j
        ∧ dhas (self.nodes ++ mappedNodes (offset + 1) other.nodes ro co) j
            = true := by
    intro a ha
    obtain ⟨j, hj, hj1, hj2⟩ := corrSpec_dget other.nodes (offset + 1) a ha
    refine ⟨j, hj, ?_⟩
    rw [dhas_append]
    have hin : dhas (mappedNodes (offset + 1) other.nodes ro co) j = true := by
      unfold dhas
      exact mappedNodes_dget_isSome other.nodes (offset + 1) j ro co hj1 hj2
    rw [hin]
    simp
  obtain ⟨mol2, hph2, hn2, hf2, hx2, he2⟩ :=
    mergeInteractionsPhase_ok other.interactions
      { self with nodes := self.nodes ++ mappedNodes (offset + 1) other.nodes ro co }
      (corrSpec (offset + 1) other.nodes)
      (by
        intro q hq i hi a ha
        exact hcorrP a (hinters q hq i hi a ha))
  obtain ⟨mol3, hph3, hn3, hf3, hx3⟩ := mergeEdgesPhase_ok other.edges mol2
    (corrSpec (offset + 1) other.nodes)
    (by
      intro e he
      obtain ⟨j1, hj1, hd1⟩ := hcorrP e.1 (hedges e he).1
      obtain ⟨j2, hj2, hd2⟩ := hcorrP e.2 (hedges e he).2
      exact ⟨⟨j1, hj1, by rw [hn2]; exact hd1⟩,
        ⟨j2, hj2, by rw [hn2]; exact hd2⟩⟩)
  refine ⟨mol3, ?_, by rw [hn3, hn2], by rw [hf3, hf2], by rw [hx3, hx2]⟩
  simp only [mergeBody, hoff, hloop, List.nil_append, hph2, hph3]

theorem mergedAtom_resid (atom : Attrs) (ro co : Int) :
    dget (mergedAtom atom ro co) "resid"
      = some (PyVal.int (intOr1 (dget atom "resid") + ro)) := by
  unfold mergedAtom
  rw [dget_dset_ne _ _ (by decide : ("resid" : String) ≠ "charge_group")]
  exact dget_dset_self _ _ _

theorem mergedAtom_charge_group (atom : Attrs) (ro co : Int) :
    dget (mergedAtom atom ro co) "charge_group"
      = some (PyVal.int (intOr1 (dget atom "charge_group") + co)) := by
  unfold mergedAtom
  exact dget_dset_self _ _ _

/-- C1: merging a non-empty molecule (whose maximum node id is its last node,
with an integer `resid` and `charge_group` on that last atom) with another
molecule of the same force field and `nrexcl` maps the incoming atom keys to
`offset+1, offset+2, ...` in iteration order (`offset` = the maximum atom id),
inserts each mapped atom with its attributes copied and `resid` /
`charge_group` incremented by the last atom's values (incoming values default
to 1 when absent), and returns that correspondence. The incoming molecule is
assumed well-formed: unique node keys, integer (or absent) `resid` and
`charge_group` values, and interactions and edges over its own nodes. -/
theorem merge_molecule_correct {κ : Type} [DecidableEq κ] (self : Molecule Nat)
    (other : Molecule κ) (last : Nat × Attrs) (R C : Int)
    (hne : self.nodes ≠ [])
    (hnodup : (self.nodes.map Prod.fst).Nodup)
    (hlast : self.nodes.getLast? = some last)
    (hmax : last.1 = maxKey self.nodes)
    (hff : self.force_field = other.force_field)
    (hnr : self.nrexcl = other.nrexcl)
    (hR : dget last.2 "resid" = some (PyVal.int R))
    (hC : dget last.2 "charge_group" = some (PyVal.int C))
    (hvals : ∀ p ∈ other.nodes, isIntOrAbsent p.2 "resid" = true
      ∧ isIntOrAbsent p.2 "charge_group" = true)
    (hond : (other.nodes.map Prod.fst).Nodup)
    (hinters : ∀ q ∈ other.interactions, ∀ i ∈ q.2, ∀ a ∈ i.atoms,
      a ∈ other.nodes.map Prod.fst)
    (hedges : ∀ e ∈ other.edges, e.1 ∈ other.nodes.map Prod.fst
      ∧ e.2 ∈ other.nodes.map Prod.fst) :
    ∃ mol3, merge_molecule self other
        = Except.ok (corrSpec (maxKey self.nodes + 1) other.nodes, mol3)
      ∧ mol3.nodes = self.nodes
          ++ mappedNodes (maxKey self.nodes + 1) other.nodes R C := by
  have hmem : (last.1, last.2) ∈ self.nodes := by
    have := getLast?_mem_self hlast
    simpa using this
  have hdg : dget self.nodes last.1 = some last.2 := dget_of_mem_nodup hnodup hmem
  have hmol : molNode self (maxKey self.nodes) = last.2 := by
    unfold molNode dgetD
    rw [← hmax, hdg]
    rfl
  have hoff : mergeOffsets self
      = Except.ok (maxKey self.nodes, PyVal.int R, PyVal.int C) := by
    unfold mergeOffsets
    rw [if_neg (by simpa [List.isEmpty_iff] using hne)]
    rw [hmol, hR]
    simp [dgetD, hC]
  obtain ⟨mol3, hbody, hn, hf, hx⟩ := mergeBody_ok self other
    (maxKey self.nodes) R C hoff (maxKey_le self.nodes) hvals hond hinters
    hedges
  have hpre : merge_molecule self other = mergeBody self other := by
    simp [merge_molecule, hff, hnr, hne]
  exact ⟨mol3, by rw [hpre, hbody], hn⟩

/-- Molecule A of the C1 example: atoms 1 and 2, last atom with resid 1. -/
def moleculeA : Molecule Nat :=
  { force_field := some "ff"
    nrexcl := some 1
    nodes := [(1, [("resid", PyVal.int 1)]),
      (2, [("resid", PyVal.int 1), ("charge_group", PyVal.int 1)])]
    interactions := []
    edges := [] }

/-- Molecule B of the C1 example: one atom named x with resid 1. -/
def moleculeB : Molecule String :=
  { force_field := some "ff"
    nrexcl := some 1
    nodes := [("x", [("resid", PyVal.int 1)])]
    interactions := []
    edges := [] }

/-- C1 witness: merging A (atoms 1, 2; last resid 1) with B (one atom x of
resid 1) maps x to 3, appends atom 3, and atom 3 carries resid 2. -/
theorem merge_molecule_correct_witness :
    (∃ mol3, merge_molecule moleculeA moleculeB
        = Except.ok (corrSpec (maxKey moleculeA.nodes + 1) moleculeB.nodes, mol3)
      ∧ mol3.nodes = moleculeA.nodes
          ++ mappedNodes (maxKey moleculeA.nodes + 1) moleculeB.nodes 1 1)
    ∧ corrSpec (maxKey moleculeA.nodes + 1) moleculeB.nodes = [("x", 3)]
    ∧ dget (mergedAtom [("resid", PyVal.int 1)] 1 1) "resid"
        = some (PyVal.int 2) :=
  ⟨merge_molecule_correct moleculeA moleculeB
      (2, [("resid", PyVal.int 1), ("charge_group", PyVal.int 1)]) 1 1
      (by decide) (by decide) (by decide) (by decide) (by decide) (by decide)
      (by decide) (by decide) (by decide) (by decide) (by decide) (by decide),
    by decide, by decide⟩

/-- C6 (amended): `merge_molecule` fails with `forceFieldMismatch` whenever
the force fields differ, before anything else happens; when they agree, an
empty receiver whose `nrexcl` is unset (`None`) adopts the incoming `nrexcl`
and the merge proceeds into the merge body; in every other situation a
`nrexcl` disagreement fails with `nrexclMismatch`. -/
theorem merge_molecule_prechecks {κ : Type} [DecidableEq κ]
    (self : Molecule Nat) (other : Molecule κ) :
    (self.force_field ≠ other.force_field →
        merge_molecule self other = Except.error PyErr.forceFieldMismatch)
    ∧ (self.force_field = other.force_field → self.nrexcl = Option.none →
        self.nodes = [] →
        merge_molecule self other
          = mergeBody { self with nrexcl := other.nrexcl } other)
    ∧ (self.force_field = other.force_field →
        ¬(self.nrexcl = Option.none ∧ self.nodes = []) →
        self.nrexcl ≠ other.nrexcl →
        merge_molecule self other = Except.error PyErr.nrexclMismatch) := by
  refine ⟨?_, ?_, ?_⟩
  · intro h
    simp [merge_molecule, h]
  · intro h1 h2 h3
    simp [merge_molecule, h1, h2, h3]
  · intro h1 h2 h3
    simp [merge_molecule, h1, h2, h3]

/-- An empty molecule that nevertheless has `nrexcl` set to 2. -/
def nrexclTwoEmpty : Molecule Nat :=
  { force_field := some "ff-a"
    nrexcl := some 2
    nodes := []
    interactions := []
    edges := [] }

/-- A one-atom molecule with `nrexcl` 3 and the same force field. -/
def nrexclThreeMol : Molecule Nat :=
  { force_field := some "ff-a"
    nrexcl := some 3
    nodes := [(1, [("resid", PyVal.int 1)])]
    interactions := []
    edges := [] }

/-- C6 counterexample: the receiver is empty and the force fields agree, yet
the merge fails with `nrexclMismatch` — the claim's "unless self is empty, in
which case self adopts other.nrexcl and the merge proceeds" is wrong for an
empty receiver whose `nrexcl` is already set: adoption requires `nrexcl is
None` in addition to emptiness. -/
theorem merge_empty_nrexcl_counterexample :
    nrexclTwoEmpty.nodes = []
    ∧ nrexclTwoEmpty.force_field = nrexclThreeMol.force_field
    ∧ nrexclTwoEmpty.nrexcl ≠ nrexclThreeMol.nrexcl
    ∧ merge_molecule nrexclTwoEmpty nrexclThreeMol
        = Except.error PyErr.nrexclMismatch := by
  refine ⟨rfl, rfl, by decide, ?_⟩
  rfl

/-- An empty molecule with no `nrexcl` and force field ff-a. -/
def ffaEmpty : Molecule Nat :=
  { force_field := some "ff-a"
    nrexcl := Option.none
    nodes := []
    interactions := []
    edges := [] }

/-- An empty molecule with no `nrexcl` and force field ff-b. -/
def ffbEmpty : Molecule Nat :=
  { force_field := some "ff-b"
    nrexcl := Option.none
    nodes := []
    interactions := []
    edges := [] }

/-- C6 witness: the three precheck branches at concrete molecules — ff-a vs
ff-b fails `forceFieldMismatch`; an empty receiver with unset `nrexcl` adopts
and proceeds into the merge body; an empty receiver with `nrexcl` already set
fails `nrexclMismatch` on disagreement. -/
theorem merge_molecule_prechecks_witness :
    merge_molecule ffaEmpty ffbEmpty = Except.error PyErr.forceFieldMismatch
    ∧ merge_molecule ffaEmpty nrexclThreeMol
        = mergeBody { ffaEmpty with nrexcl := nrexclThreeMol.nrexcl }
            nrexclThreeMol
    ∧ merge_molecule nrexclTwoEmpty nrexclThreeMol
        = Except.error PyErr.nrexclMismatch :=
  ⟨(merge_molecule_prechecks ffaEmpty ffbEmpty).1 (by decide),
    (merge_molecule_prechecks ffaEmpty nrexclThreeMol).2.1 (by decide)
      (by decide) (by decide),
    (merge_molecule_prechecks nrexclTwoEmpty nrexclThreeMol).2.2 (by decide)
      (by decide) (by decide)⟩

/-- C10: merging any well-formed molecule into an empty receiver with unset
`nrexcl` and the same force field gives new atom ids 1, 2, ... in iteration
order with all offsets 0; each incoming atom keeps its own `resid` and
`charge_group` when present (an absent one is set to 1) — no base value is
added to the incoming `resid`. -/
theorem merge_into_empty {κ : Type} [DecidableEq κ] (self : Molecule Nat)
    (other : Molecule κ)
    (hempty : self.nodes = [])
    (hnr : self.nrexcl = Option.none)
    (hff : self.force_field = other.force_field)
    (hvals : ∀ p ∈ other.nodes, isIntOrAbsent p.2 "resid" = true
      ∧ isIntOrAbsent p.2 "charge_group" = true)
    (hond : (other.nodes.map Prod.fst).Nodup)
    (hinters : ∀ q ∈ other.interactions, ∀ i ∈ q.2, ∀ a ∈ i.atoms,
      a ∈ other.nodes.map Prod.fst)
    (hedges : ∀ e ∈ other.edges, e.1 ∈ other.nodes.map Prod.fst
      ∧ e.2 ∈ other.nodes.map Prod.fst) :
    (∃ mol3, merge_molecule self other
        = Except.ok (corrSpec 1 other.nodes, mol3)
      ∧ mol3.nodes = mappedNodes 1 other.nodes 0 0)
    ∧ (∀ atom : Attrs, ∀ r : Int, dget atom "resid" = some (PyVal.int r) →
        dget (mergedAtom atom 0 0) "resid" = some (PyVal.int r))
    ∧ (∀ atom : Attrs, dget atom "resid" = Option.none →
        dget (mergedAtom atom 0 0) "resid" = some (PyVal.int 1))
    ∧ (∀ atom : Attrs, ∀ c : Int,
        dget atom "charge_group" = some (PyVal.int c) →
        dget (mergedAtom atom 0 0) "charge_group" = some (PyVal.int c))
    ∧ (∀ atom : Attrs, dget atom "charge_group" = Option.none →
        dget (mergedAtom atom 0 0) "charge_group" = some (PyVal.int 1)) := by
  have hpre : merge_molecule self other
      = mergeBody { self with nrexcl := other.nrexcl } other := by
    simp [merge_molecule, hff, hempty, hnr]
  have hoff : mergeOffsets { self with nrexcl := other.nrexcl }
      = Except.ok (0, PyVal.int 0, PyVal.int 0) := by
    simp [mergeOffsets, hempty]
  obtain ⟨mol3, hbody, hn, hf, hx⟩ := mergeBody_ok
    { self with nrexcl := other.nrexcl } other 0 0 0 hoff
    (by intro p hp; simp [hempty] at hp) hvals hond hinters hedges
  refine ⟨⟨mol3, ?_, ?_⟩, ?_, ?_, ?_, ?_⟩
  · rw [hpre, hbody]
  · rw [hn]
    simp [hempty]
  · intro atom r h
    rw [mergedAtom_resid, h]
    simp [intOr1]
  · intro atom h
    rw [mergedAtom_resid, h]
    simp [intOr1]
  · intro atom c h
    rw [mergedAtom_charge_group, h]
    simp [intOr1]
  · intro atom h
    rw [mergedAtom_charge_group, h]
    simp [intOr1]

/-- An empty receiver with unset `nrexcl`. -/
def emptyReceiver : Molecule Nat :=
  { force_field := some "ff"
    nrexcl := Option.none
    nodes := []
    interactions := []
    edges := [] }

/-- A donor molecule: atom a with resid 7, atom b with no attributes. -/
def otherDonor : Molecule String :=
  { force_field := some "ff"
    nrexcl := some 2
    nodes := [("a", [("resid", PyVal.int 7)]), ("b", [])]
    interactions := []
    edges := [("a", "b")] }

/-- C10 witness: merging `otherDonor` into the empty receiver gives ids 1, 2,
keeps atom a's resid 7 unshifted, and defaults atom b's resid to 1. -/
theorem merge_into_empty_witness :
    (∃ mol3, merge_molecule emptyReceiver otherDonor
        = Except.ok (corrSpec 1 otherDonor.nodes, mol3)
      ∧ mol3.nodes = mappedNodes 1 otherDonor.nodes 0 0)
    ∧ corrSpec 1 otherDonor.nodes = [("a", 1), ("b", 2)]
    ∧ mappedNodes 1 otherDonor.nodes 0 0
        = [(1, [("resid", PyVal.int 7), ("charge_group", PyVal.int 1)]),
            (2, [("resid", PyVal.int 1), ("charge_group", PyVal.int 1)])] :=
  ⟨(merge_into_empty emptyReceiver otherDonor (by decide) (by decide)
      (by decide) (by decide) (by decide) (by decide) (by decide)).1,
    by decide, by decide⟩
